import Mathlib

/-!
Shallow embedding of the entity-linking evaluation notebook
(`evaluations/quantitative/nel_eval.ipynb`) and of the UniRel
reformatting notebook (`re/UniRel/unirel_reformat.ipynb`).

Python values that may be a string or a non-string (`None`, `NaN`) are
modelled as `Option String` (`none` = not a string).  Python code that can
raise an exception (an out-of-range index, a pandas construction error, a
non-boolean mask) is modelled as a function into `Option _`, with `none`
standing for the raised exception.
-/

set_option autoImplicit false

/-- Boolean test that `xs` is a prefix of `ys` (character lists). -/
def listPrefixB : List Char → List Char → Bool
  | [], _ => true
  | _ :: _, [] => false
  | a :: as, b :: bs => a == b && listPrefixB as bs

/-- Boolean test that `xs` is a contiguous sublist of `ys`; models Python
`x in y` on strings at the character-list level. -/
def listSubB : List Char → List Char → Bool
  | xs, [] => xs.isEmpty
  | xs, b :: bs => listPrefixB xs (b :: bs) || listSubB xs bs

/-- Python `s1 in s2` on strings (contiguous substring test). -/
def pyIn (s1 s2 : String) : Bool :=
  listSubB s1.toList s2.toList

/-- `is_match(ent1, ent2, matching)` from the notebook.  The Python code
first returns `False` when either argument is not a string, then branches
on `matching`; an unrecognised `matching` prints an error and returns
Python `None`, modelled as the outer `none`. -/
def is_match (ent1 ent2 : Option String) (matching : String) : Option Bool :=
  match ent1, ent2 with
  | some s1, some s2 =>
    if matching = "STRONG" then some (s1 == s2)
    else if matching = "WEAK" then some (pyIn s1 s2 || pyIn s2 s1)
    else none
  | _, _ => some false

/-- The boolean value of `is_match` under a recognised matching policy. -/
def is_matchB (ent1 ent2 : Option String) (matching : String) : Bool :=
  match ent1, ent2 with
  | some s1, some s2 =>
    if matching = "STRONG" then s1 == s2 else pyIn s1 s2 || pyIn s2 s1
  | _, _ => false

/-- Applying `is_match` over the tool-entity series produces the boolean
selection mask; pandas raises when a mask entry is not a boolean, modelled
by the outer `none`. -/
def maskM : List (Option String) → Option String → String → Option (List Bool)
  | [], _, _ => some []
  | t :: ts, g, m =>
    match is_match t g m, maskM ts g m with
    | some b, some bs => some (b :: bs)
    | _, _ => none

/-- Index of the first `true` in the mask: `matches.index.to_list()[0]`
over a freshly indexed series. -/
def firstTrue : List Bool → Option Nat
  | [] => none
  | b :: bs => if b then some 0 else (firstTrue bs).map (· + 1)

/-- The loop of `find_match`, running `gold_idx` over
`range(stop_idx)`; `fuel` is the number of remaining iterations.
Reading `gs_entities[gold_idx]` out of range is Python's `IndexError`,
modelled by `none`. -/
def findMatchFrom (gs tool : List (Option String)) (matching : String) :
    Nat → Nat → Option (Int × Int)
  | _, 0 => some (-1, -1)
  | gold_idx, fuel + 1 =>
    match gs.get? gold_idx with
    | none => none
    | some g =>
      match maskM tool g matching with
      | none => none
      | some mask =>
        match firstTrue mask with
        | some j => some ((gold_idx : Int), (j : Int))
        | none => findMatchFrom gs tool matching (gold_idx + 1) fuel

/-- `find_match(gs_entities, tool_entities, matching, gold_set)` from the
notebook: `stop_idx = len(gs_entities) if gold_set == "EXTENDED" else 1`. -/
def find_match (gs tool : List (Option String)) (matching gold_set : String) :
    Option (Int × Int) :=
  findMatchFrom gs tool matching 0 (if gold_set = "EXTENDED" then gs.length else 1)

/-- `gs_qids.index(None)` guarded by `None in gs_qids`: the index of the
first `None` of the list, or `none` when no `None` is present. -/
def firstNoneIdx : List (Option String) → Option Nat
  | [] => none
  | none :: _ => some 0
  | some _ :: rest => (firstNoneIdx rest).map (· + 1)

/-- The `fill_in_qids` mutation block of `prune_gold_set`.  The outer
`none` is Python's `IndexError` on reading `gs_qids[1]` or `gs_qids[2]`
out of range; otherwise the (possibly updated) list is returned. -/
def fill_qids (q : List (Option String)) : Option (List (Option String)) :=
  match firstNoneIdx q with
  | none => some q
  | some none_idx =>
    if none_idx = 0 then
      match q.get? 1 with
      | none => none
      | some q1 =>
        if q1.isSome then some (q.set 0 q1)
        else
          match q.get? 2 with
          | none => none
          | some q2 =>
            if q2.isSome then some ((q.set 0 q2).set 1 q2) else some q
    else if none_idx = 1 then
      match q.get? 2 with
      | none => none
      | some q2 => if q2.isSome then some (q.set 1 q2) else some q
    else some q

/-- `prune_gold_set(gs_entities, gs_qids, gold_set, fill_in_qids)` from
the notebook.  After the optional fill-in, the pandas frame construction
requires the two lists to have equal length (`none` = `ValueError`);
`iloc[:stop_idx].dropna()` keeps, among the first `stop_idx` positions,
the pairs in which both the entity and the QID are present. -/
def prune_gold_set (gs_entities gs_qids : List (Option String))
    (gold_set : String) (fiq : Bool) : Option (List String × List String) :=
  match (if fiq then fill_qids gs_qids else some gs_qids) with
  | none => none
  | some qids =>
    if gs_entities.length = qids.length then
      let stop_idx := if gold_set = "EXTENDED" then 3 else 1
      let valid := ((gs_entities.zip qids).take stop_idx).filterMap
        (fun p => match p with
          | (some e, some q) => some (e, q)
          | _ => none)
      some (valid.map Prod.fst, valid.map Prod.snd)
    else none

/-- One parsed row of the gold-standard frame: its `id` and the literal
entity and QID lists parsed with `ast.literal_eval`. -/
structure GoldRow where
  id : String
  entity : List (Option String)
  qid : List (Option String)
deriving DecidableEq

/-- One row of the tool frame: the document-id column (`id_col`), the
entity column (`ent_col`, `none` = non-string/NaN) and the QID column
(`qid_col`, `none` = NaN). -/
structure ToolRow where
  docid : String
  ent : Option String
  qid : Option String
deriving DecidableEq

/-- The classification of a gold record inside the main loop of
`calculate_precision_recall_f1`: true positive, false positive, false
negative, or skipped because the pruned entity list is empty. -/
inductive Cls
  | tp
  | fp
  | fn
  | skip
deriving DecidableEq

/-- Python `entity.upper()` on the ASCII data the notebook handles:
uppercase every character. -/
def pyUpper (s : String) : String :=
  String.mk (s.toList.map Char.toUpper)

/-- The list comprehension `[entity.upper() for entity in ...]` raises
(`AttributeError`) when some entity is not a string; `none` models the
raised exception. -/
def seqOpts : List (Option String) → Option (List String)
  | [] => some []
  | none :: _ => none
  | some s :: rest => (seqOpts rest).map (s :: ·)

/-- The body of the main loop of `calculate_precision_recall_f1` after the
tool rows with the record's document id and a present QID have been
selected: uppercase the selected entities, run `find_match`, and classify
the record as FN, TP or FP.  `none` models any exception raised on the
way. -/
def classify_core (gs_entities gs_qids : List String) (selected : List ToolRow)
    (matching gold_set : String) : Option Cls :=
  match seqOpts (selected.map ToolRow.ent) with
  | none => none
  | some raw_ents =>
    let tool_entities := raw_ents.map pyUpper
    let tool_qids := selected.filterMap ToolRow.qid
    match find_match (gs_entities.map some) (tool_entities.map some) matching gold_set with
    | none => none
    | some (gi, ti) =>
      if gi = -1 then some Cls.fn
      else
        let start_idx : Nat := if gold_set = "EXTENDED" then 0 else gi.toNat
        match tool_qids.get? ti.toNat with
        | none => none
        | some tq =>
          if tq ∈ (gs_qids.take (gi.toNat + 1)).drop start_idx then some Cls.tp
          else some Cls.fp

/-- One iteration of the main loop of `calculate_precision_recall_f1` for
a single gold record: prune the gold entity/QID lists, skip the record if
nothing is left, otherwise select the tool rows whose `id_col` equals the
record's id and whose `qid_col` is present, and classify. -/
def classify_record (row : GoldRow) (df_tool : List ToolRow)
    (matching gold_set : String) (fiq : Bool) : Option Cls :=
  match prune_gold_set row.entity row.qid gold_set fiq with
  | none => none
  | some (gs_entities, gs_qids) =>
    if gs_entities.isEmpty then some Cls.skip
    else classify_core gs_entities gs_qids
      (df_tool.filter (fun r => r.docid == row.id && r.qid.isSome)) matching gold_set

/-- Add one record's classification to the `(TP, FP, FN)` counters. -/
def bump (c : Cls) (acc : Nat × Nat × Nat) : Nat × Nat × Nat :=
  match c with
  | Cls.tp => (acc.1 + 1, acc.2.1, acc.2.2)
  | Cls.fp => (acc.1, acc.2.1 + 1, acc.2.2)
  | Cls.fn => (acc.1, acc.2.1, acc.2.2 + 1)
  | Cls.skip => acc

/-- The main loop of `calculate_precision_recall_f1`: fold the gold rows
through `classify_record`, accumulating the `(TP, FP, FN)` counters. -/
def loopCounts (df_tool : List ToolRow) (matching gold_set : String) (fiq : Bool) :
    List GoldRow → Nat × Nat × Nat → Option (Nat × Nat × Nat)
  | [], acc => some acc
  | row :: rest, acc =>
    match classify_record row df_tool matching gold_set fiq with
    | none => none
    | some c => loopCounts df_tool matching gold_set fiq rest (bump c acc)

/-- `precision = TP / (TP + FP) if (TP + FP) > 0 else 0`. -/
def precision_of (TP FP : Nat) : ℚ :=
  if 0 < TP + FP then (TP : ℚ) / ((TP : ℚ) + (FP : ℚ)) else 0

/-- `recall = TP / (TP + FN) if (TP + FN) > 0 else 0`. -/
def recall_of (TP FN : Nat) : ℚ :=
  if 0 < TP + FN then (TP : ℚ) / ((TP : ℚ) + (FN : ℚ)) else 0

/-- `f1_score = 2 * (precision * recall) / (precision + recall) if
(precision + recall) > 0 else 0`. -/
def f1_of (p r : ℚ) : ℚ :=
  if 0 < p + r then 2 * (p * r) / (p + r) else 0

/-- `calculate_precision_recall_f1(gs, df_tool, ...)` from the notebook:
run the counting loop from `(0, 0, 0)` and return the
`(precision, recall, f1_score)` triple.  `none` models an exception
raised inside the loop. -/
def calculate_precision_recall_f1 (gs : List GoldRow) (df_tool : List ToolRow)
    (matching gold_set : String) (fiq : Bool) : Option (ℚ × ℚ × ℚ) :=
  match loopCounts df_tool matching gold_set fiq gs (0, 0, 0) with
  | none => none
  | some (TP, FP, FN) =>
    some (precision_of TP FP, recall_of TP FN,
      f1_of (precision_of TP FP) (recall_of TP FN))

/-- Whether a gold row's pruned entity list is non-empty (rows whose
pruning raises count as `false`; they never occur on successful runs). -/
def prunedNonempty (gold_set : String) (fiq : Bool) (row : GoldRow) : Bool :=
  match prune_gold_set row.entity row.qid gold_set fiq with
  | some (es, _) => !es.isEmpty
  | none => false

/-- One row of the UniRel result frame, with the `c119_output` literal
already parsed by `ast.literal_eval`: a list of lists of
(head, relation, tail) triples, of which the code takes element `[0]`. -/
structure ReRow where
  c5 : String
  c119 : String
  output : List (List (String × String × String))
deriving DecidableEq

/-- One row of the reformatted output frame `out_df`. -/
structure OutRow where
  c5_id : String
  c119_input : String
  head : Option String
  relation : Option String
  tail : Option String
deriving DecidableEq

/-- The output row built from one extracted triple. -/
def tripleRow (r : ReRow) (t : String × String × String) : OutRow :=
  ⟨r.c5, r.c119, some t.1, some t.2.1, some t.2.2⟩

/-- The output row emitted when a record has no extracted triple. -/
def emptyRow (r : ReRow) : OutRow :=
  ⟨r.c5, r.c119, none, none, none⟩

/-- The body of the flattening loop for one input row:
`output = ast.literal_eval(...)[0]` (`none` = `IndexError` on an empty
outer literal); an empty `output` emits one all-`None` row, otherwise one
row per triple is appended. -/
def flattenRow (r : ReRow) : Option (List OutRow) :=
  match r.output.head? with
  | none => none
  | some out =>
    if out.isEmpty then some [emptyRow r]
    else some (out.map (tripleRow r))

/-- The whole `out_df` flattening loop of the UniRel reformatting
notebook: rows are appended in input order, blocks concatenated. -/
def unirel_reformat : List ReRow → Option (List OutRow)
  | [] => some []
  | r :: rest =>
    match flattenRow r, unirel_reformat rest with
    | some hd, some tl => some (hd ++ tl)
    | _, _ => none

/-- Specification-side flattening: for each row take the first element of
the parsed literal, emit one all-`None` row when it is empty and one row
per triple otherwise, concatenating the blocks in input order. -/
def unirel_reformat_spec (rows : List ReRow) : List OutRow :=
  rows.foldr
    (fun r acc =>
      (if (r.output.headD []).isEmpty then [emptyRow r]
       else (r.output.headD []).map (tripleRow r)) ++ acc)
    []

example :
    unirel_reformat
      [⟨"a", "t1", [[]]⟩, ⟨"b", "t2", [[("H", "R", "T"), ("H2", "R2", "T2")]]⟩] =
      some [⟨"a", "t1", none, none, none⟩,
        ⟨"b", "t2", some "H", some "R", some "T"⟩,
        ⟨"b", "t2", some "H2", some "R2", some "T2"⟩] := by decide

example : unirel_reformat [⟨"a", "t1", []⟩] = none := by decide

example : is_match (some "AB") (some "XABY") "WEAK" = some true := by decide
example : is_match (some "AB") (some "XABY") "STRONG" = some false := by decide
example : is_match none (some "A") "FOO" = some false := by decide
example : is_match (some "A") (some "A") "FOO" = none := by decide
example : find_match [some "A"] [some "B", some "XAY"] "WEAK" "PRIMARY" =
    some (0, 1) := by decide
example : find_match [some "A"] [] "WEAK" "PRIMARY" = some (-1, -1) := by decide
example : find_match [] [] "WEAK" "PRIMARY" = none := by decide
example : find_match [] [] "WEAK" "EXTENDED" = some (-1, -1) := by decide
example : fill_qids [none, some "Q1"] = some [some "Q1", some "Q1"] := by decide
example : fill_qids [none] = none := by decide
example : fill_qids [none, none] = none := by decide
example : fill_qids [some "Q0", none] = none := by decide
example : fill_qids [none, none, some "Q2"] = some [some "Q2", some "Q2", some "Q2"] := by
  decide
example : prune_gold_set [some "A", some "B"] [none, some "Q1"] "PRIMARY" true =
    some (["A"], ["Q1"]) := by decide
example : prune_gold_set [some "A", none, some "C"] [none, some "Q2", some "Q3"]
    "EXTENDED" false = some (["C"], ["Q3"]) := by decide

example :
    calculate_precision_recall_f1
      [⟨"d1", [some "ENGINE"], [some "Q1"]⟩]
      [⟨"d1", some "Engine", some "Q1"⟩] "WEAK" "PRIMARY" false =
      some (1, 1, 1) := by
  have hc :
      loopCounts [⟨"d1", some "Engine", some "Q1"⟩] "WEAK" "PRIMARY" false
        [⟨"d1", [some "ENGINE"], [some "Q1"]⟩] (0, 0, 0) = some (1, 0, 0) := by
    decide
  unfold calculate_precision_recall_f1
  rw [hc]
  norm_num [precision_of, recall_of, f1_of]

example :
    calculate_precision_recall_f1
      [⟨"d1", [some "ENGINE"], [some "Q1"]⟩, ⟨"d2", [some "WING"], [some "Q2"]⟩]
      [⟨"d1", some "Engine", some "Q9"⟩] "WEAK" "PRIMARY" false =
      some (0, 0, 0) := by
  have hc :
      loopCounts [⟨"d1", some "Engine", some "Q9"⟩] "WEAK" "PRIMARY" false
        [⟨"d1", [some "ENGINE"], [some "Q1"]⟩, ⟨"d2", [some "WING"], [some "Q2"]⟩]
        (0, 0, 0) = some (0, 1, 1) := by decide
  unfold calculate_precision_recall_f1
  rw [hc]
  norm_num [precision_of, recall_of, f1_of]

/-! ### Substring correctness -/

theorem listPrefixB_iff (xs ys : List Char) : listPrefixB xs ys = true ↔ xs <+: ys := by
  induction xs generalizing ys with
  | nil => simp [listPrefixB]
  | cons a as ih =>
    cases ys with
    | nil => simp [listPrefixB]
    | cons b bs => simp [listPrefixB, List.cons_prefix_cons, ih]

theorem listSubB_iff (xs ys : List Char) : listSubB xs ys = true ↔ xs <:+: ys := by
  induction ys with
  | nil => cases xs <;> simp [listSubB]
  | cons b bs ih => simp [listSubB, listPrefixB_iff, ih, List.infix_cons_iff]

theorem pyIn_iff (s1 s2 : String) : pyIn s1 s2 = true ↔ s1.toList <:+: s2.toList :=
  listSubB_iff s1.toList s2.toList

/-- C6: with matching "STRONG", `is_match` on two strings returns True
exactly when they are equal; with "WEAK" exactly when one is a contiguous
substring of the other; a non-string argument yields False under both
policies. -/
theorem C6_is_match_policies (s1 s2 : String) :
    (is_match (some s1) (some s2) "STRONG" = some true ↔ s1 = s2)
    ∧ (is_match (some s1) (some s2) "WEAK" = some true ↔
        (s1.toList <:+: s2.toList ∨ s2.toList <:+: s1.toList))
    ∧ (∀ e : Option String,
        is_match none e "STRONG" = some false ∧ is_match none e "WEAK" = some false
        ∧ is_match e none "STRONG" = some false ∧ is_match e none "WEAK" = some false) := by
  refine ⟨?_, ?_, ?_⟩
  · simp [is_match]
  · rw [show is_match (some s1) (some s2) "WEAK" = some (pyIn s1 s2 || pyIn s2 s1) by
      simp [is_match]]
    simp [pyIn_iff]
  · intro e
    cases e <;> simp [is_match]

/-- C9 counterexample: "FOO" is neither "STRONG" nor "WEAK", yet
`is_match` called on a non-string first argument returns False (a
boolean), not None. -/
theorem C9_counterexample :
    ("FOO" ≠ "STRONG" ∧ "FOO" ≠ "WEAK") ∧ is_match none (some "A") "FOO" ≠ none :=
  ⟨⟨by decide, by decide⟩, by simp [is_match]⟩

/-- C9 amended: when BOTH inputs are strings and matching is neither
"STRONG" nor "WEAK", `is_match` returns None without raising; when either
input is not a string it returns False regardless of the matching
argument. -/
theorem C9_invalid_matching (m : String) (h1 : m ≠ "STRONG") (h2 : m ≠ "WEAK") :
    (∀ s1 s2 : String, is_match (some s1) (some s2) m = none)
    ∧ (∀ e : Option String, is_match none e m = some false ∧ is_match e none m = some false) := by
  constructor
  · intro s1 s2
    simp [is_match, h1, h2]
  · intro e
    cases e <;> simp [is_match]

/-- C9 witness. -/
theorem C9_witness : is_match (some "A") (some "B") "FOO" = none :=
  (C9_invalid_matching "FOO" (by decide) (by decide)).1 "A" "B"

/-- C1: `calculate_precision_recall_f1` returns the triple
(precision, recall, f1) computed from the TP/FP/FN counts of its main
loop by the guarded formulas of the notebook. -/
theorem C1_precision_recall_f1 (gs : List GoldRow) (df : List ToolRow)
    (matching gold_set : String) (fiq : Bool) (TP FP FN : Nat)
    (h : loopCounts df matching gold_set fiq gs (0, 0, 0) = some (TP, FP, FN)) :
    calculate_precision_recall_f1 gs df matching gold_set fiq =
      some (precision_of TP FP, recall_of TP FN,
        f1_of (precision_of TP FP) (recall_of TP FN)) := by
  unfold calculate_precision_recall_f1
  rw [h]

/-- C1 witness. -/
theorem C1_witness :
    calculate_precision_recall_f1 [⟨"d1", [some "ENGINE"], [some "Q1"]⟩]
      [⟨"d1", some "Engine", some "Q1"⟩] "WEAK" "PRIMARY" false =
      some (precision_of 1 0, recall_of 1 0, f1_of (precision_of 1 0) (recall_of 1 0)) :=
  C1_precision_recall_f1 [⟨"d1", [some "ENGINE"], [some "Q1"]⟩]
    [⟨"d1", some "Engine", some "Q1"⟩] "WEAK" "PRIMARY" false 1 0 0 (by decide)

/-- C7: with fill_in_qids disabled, `prune_gold_set` returns exactly the
(entity, QID) pairs, in order, among the first position (PRIMARY) or the
first three positions (EXTENDED) in which both components are present. -/
theorem C7_prune_gold_set_spec (ents qids : List (Option String)) (gold_set : String)
    (hlen : ents.length = qids.length) :
    prune_gold_set ents qids gold_set false =
      some
        ((((ents.zip qids).take (if gold_set = "EXTENDED" then 3 else 1)).filterMap
            (fun p => match p with | (some e, some q) => some (e, q) | _ => none)).map
          Prod.fst,
        (((ents.zip qids).take (if gold_set = "EXTENDED" then 3 else 1)).filterMap
            (fun p => match p with | (some e, some q) => some (e, q) | _ => none)).map
          Prod.snd) := by
  simp [prune_gold_set, hlen]

/-- C7 witness. -/
theorem C7_witness :
    prune_gold_set [some "A", none, some "C"] [some "Q1", some "Q2", none]
      "EXTENDED" false = some (["A"], ["Q1"]) :=
  (C7_prune_gold_set_spec [some "A", none, some "C"] [some "Q1", some "Q2", none]
    "EXTENDED" (by decide)).trans (by decide)

/-- C3: a gold record's classification depends only on the tool rows
whose document-id column equals the record's id: restricting the tool
frame to those rows leaves the classification unchanged, so no row with a
different document id ever affects it. -/
theorem C3_only_same_docid_rows (row : GoldRow) (df : List ToolRow)
    (matching gold_set : String) (fiq : Bool) :
    classify_record row df matching gold_set fiq =
      classify_record row (df.filter (fun r => r.docid == row.id)) matching gold_set fiq := by
  unfold classify_record
  have hsel : ∀ l : List ToolRow,
      (l.filter (fun r => r.docid == row.id)).filter
        (fun r => r.docid == row.id && r.qid.isSome) =
      l.filter (fun r => r.docid == row.id && r.qid.isSome) := by
    intro l
    induction l with
    | nil => rfl
    | cons r rest ih =>
      by_cases h : (r.docid == row.id) = true
      · simp [List.filter_cons, h, ih]
      · simp [List.filter_cons, h, ih]
  rw [hsel]

/-! ### Counter partition -/

theorem classify_core_ne_skip (es qs : List String) (sel : List ToolRow)
    (m g : String) (c : Cls) (h : classify_core es qs sel m g = some c) :
    c ≠ Cls.skip := by
  intro hskip
  subst hskip
  unfold classify_core at h
  dsimp only at h
  repeat' split at h
  all_goals simp_all

theorem classify_record_skip_iff (row : GoldRow) (df : List ToolRow) (m g : String)
    (fiq : Bool) (c : Cls) (h : classify_record row df m g fiq = some c) :
    (c = Cls.skip ↔ prunedNonempty g fiq row = false) := by
  unfold classify_record at h
  unfold prunedNonempty
  cases hp : prune_gold_set row.entity row.qid g fiq with
  | none => rw [hp] at h; cases h
  | some pr =>
    rw [hp] at h
    obtain ⟨es, qs⟩ := pr
    by_cases he : es.isEmpty = true
    · simp only [he, if_pos] at h
      have hc : c = Cls.skip := by
        have := Option.some.inj h
        exact this.symm
      simp [hc, he]
    · simp only [he, if_neg, Bool.false_eq_true, not_false_iff] at h
      have hne := classify_core_ne_skip es qs _ m g c h
      simp [hne, he]

theorem loopCounts_sum (df : List ToolRow) (m g : String) (fiq : Bool) :
    ∀ (gs : List GoldRow) (acc out : Nat × Nat × Nat),
      loopCounts df m g fiq gs acc = some out →
      out.1 + out.2.1 + out.2.2 =
        acc.1 + acc.2.1 + acc.2.2 + gs.countP (prunedNonempty g fiq) := by
  intro gs
  induction gs with
  | nil =>
    intro acc out h
    simp only [loopCounts] at h
    obtain rfl := Option.some.inj h
    simp
  | cons row rest ih =>
    intro acc out h
    unfold loopCounts at h
    cases hc : classify_record row df m g fiq with
    | none => rw [hc] at h; cases h
    | some c =>
      rw [hc] at h
      have hsum := ih (bump c acc) out h
      have hiff := classify_record_skip_iff row df m g fiq c hc
      rw [List.countP_cons]
      cases c with
      | skip =>
        have hpe : prunedNonempty g fiq row = false := hiff.mp rfl
        simp only [bump] at hsum
        rw [hsum, hpe]
        simp
      | tp =>
        have hpe : prunedNonempty g fiq row = true := by
          cases hv : prunedNonempty g fiq row with
          | true => rfl
          | false => exact absurd (hiff.mpr hv) (by simp)
        simp only [bump] at hsum
        rw [hsum, hpe]
        simp
        omega
      | fp =>
        have hpe : prunedNonempty g fiq row = true := by
          cases hv : prunedNonempty g fiq row with
          | true => rfl
          | false => exact absurd (hiff.mpr hv) (by simp)
        simp only [bump] at hsum
        rw [hsum, hpe]
        simp
        omega
      | fn =>
        have hpe : prunedNonempty g fiq row = true := by
          cases hv : prunedNonempty g fiq row with
          | true => rfl
          | false => exact absurd (hiff.mpr hv) (by simp)
        simp only [bump] at hsum
        rw [hsum, hpe]
        simp
        omega

/-- C2: on a successful run, every gold row with a non-empty pruned
entity list contributes exactly one unit to exactly one of the TP/FP/FN
counters and a row with an empty pruned list contributes to none, so the
final counts satisfy TP + FP + FN = number of gold rows whose pruned
entity list is non-empty. -/
theorem C2_counts_partition (gs : List GoldRow) (df : List ToolRow) (m g : String)
    (fiq : Bool) (TP FP FN : Nat)
    (h : loopCounts df m g fiq gs (0, 0, 0) = some (TP, FP, FN)) :
    TP + FP + FN = gs.countP (prunedNonempty g fiq) := by
  have hs := loopCounts_sum df m g fiq gs (0, 0, 0) (TP, FP, FN) h
  simpa using hs

/-- C2 witness: one true positive, one skipped row, one false negative. -/
theorem C2_witness :
    (1 : Nat) + 0 + 1 =
      List.countP (prunedNonempty "PRIMARY" false)
        [⟨"d1", [some "A"], [some "Q1"]⟩, ⟨"d2", [none], [some "Q"]⟩,
          ⟨"d3", [some "B"], [some "Q2"]⟩] :=
  C2_counts_partition
    [⟨"d1", [some "A"], [some "Q1"]⟩, ⟨"d2", [none], [some "Q"]⟩,
      ⟨"d3", [some "B"], [some "Q2"]⟩]
    [⟨"d1", some "A", some "Q1"⟩] "WEAK" "PRIMARY" false 1 0 1 (by decide)

/-! ### find_match specification -/

theorem is_match_eq_isMatchB (e1 e2 : Option String) (m : String)
    (hm : m = "STRONG" ∨ m = "WEAK") :
    is_match e1 e2 m = some (is_matchB e1 e2 m) := by
  rcases hm with hm | hm <;> subst hm <;>
    cases e1 <;> cases e2 <;> simp [is_match, is_matchB]

theorem maskM_eq_map (tool : List (Option String)) (g : Option String) (m : String)
    (hm : m = "STRONG" ∨ m = "WEAK") :
    maskM tool g m = some (tool.map (fun t => is_matchB t g m)) := by
  induction tool with
  | nil => rfl
  | cons t ts ih =>
    simp [maskM, is_match_eq_isMatchB t g m hm, ih]

theorem firstTrue_eq_none_iff (l : List Bool) :
    firstTrue l = none ↔ ∀ b ∈ l, b = false := by
  induction l with
  | nil => simp [firstTrue]
  | cons b bs ih => cases b <;> simp [firstTrue, ih]

theorem firstTrue_eq_some_get (l : List Bool) (j : Nat) (h : firstTrue l = some j) :
    l.get? j = some true := by
  induction l generalizing j with
  | nil => cases h
  | cons b bs ih =>
    cases b with
    | true =>
      simp [firstTrue] at h
      subst h
      rfl
    | false =>
      simp [firstTrue] at h
      obtain ⟨j', hj', rfl⟩ := h
      simpa using ih j' hj'

theorem findMatchFrom_spec (gs tool : List (Option String)) (m : String)
    (hm : m = "STRONG" ∨ m = "WEAK") :
    ∀ (fuel start : Nat), start + fuel ≤ gs.length →
      (findMatchFrom gs tool m start fuel = some (-1, -1) ↔
        ∀ i g, start ≤ i → i < start + fuel → gs.get? i = some g →
          ∀ t ∈ tool, is_matchB t g m = false)
      ∧ (findMatchFrom gs tool m start fuel ≠ some (-1, -1) →
        ∃ (i j : Nat) (g t : Option String),
          findMatchFrom gs tool m start fuel = some ((i : Int), (j : Int)) ∧
          start ≤ i ∧ i < start + fuel ∧ gs.get? i = some g ∧
          tool.get? j = some t ∧ is_matchB t g m = true) := by
  intro fuel
  induction fuel with
  | zero =>
    intro start hle
    constructor
    · constructor
      · intro _ i g h1 h2
        omega
      · intro _
        rfl
    · intro hne
      exact absurd rfl hne
  | succ fuel ih =>
    intro start hle
    have hstart_lt : start < gs.length := by omega
    obtain ⟨g0, hg0⟩ : ∃ g0, gs.get? start = some g0 := by
      cases hq : gs.get? start with
      | none =>
        rw [List.get?_eq_none] at hq
        omega
      | some g0 => exact ⟨g0, rfl⟩
    have hmask := maskM_eq_map tool g0 m hm
    have hstep : findMatchFrom gs tool m start (fuel + 1) =
        match firstTrue (tool.map (fun t => is_matchB t g0 m)) with
        | some j => some ((start : Int), (j : Int))
        | none => findMatchFrom gs tool m (start + 1) fuel := by
      simp only [findMatchFrom, hg0, hmask]
    cases hft : firstTrue (tool.map (fun t => is_matchB t g0 m)) with
    | some j =>
      rw [hft] at hstep
      have hjt := firstTrue_eq_some_get _ j hft
      rw [List.get?_map] at hjt
      obtain ⟨t, ht, hfb⟩ : ∃ t, tool.get? j = some t ∧ is_matchB t g0 m = true := by
        cases htj : tool.get? j with
        | none =>
          rw [htj] at hjt
          cases hjt
        | some t =>
          rw [htj] at hjt
          exact ⟨t, rfl, by simpa using hjt⟩
      constructor
      · rw [hstep]
        constructor
        · intro h
          exfalso
          have h1 : ((start : Int), (j : Int)) = ((-1 : Int), (-1 : Int)) :=
            Option.some.inj h
          have h2 : (start : Int) = -1 := congrArg Prod.fst h1
          omega
        · intro hno
          exfalso
          have hc := hno start g0 (le_refl start) (by omega) hg0 t (List.get?_mem ht)
          rw [hfb] at hc
          cases hc
      · intro _
        exact ⟨start, j, g0, t, hstep, le_refl start, by omega, hg0, ht, hfb⟩
    | none =>
      rw [hft] at hstep
      have hall : ∀ t ∈ tool, is_matchB t g0 m = false := by
        intro t htm
        exact (firstTrue_eq_none_iff _).mp hft (is_matchB t g0 m)
          (List.mem_map_of_mem _ htm)
      have hih := ih (start + 1) (by omega)
      constructor
      · rw [hstep, hih.1]
        constructor
        · intro hno i g hi1 hi2 hgi t htm
          rcases Nat.eq_or_lt_of_le hi1 with heq | hlt
          · subst heq
            rw [hg0] at hgi
            injection hgi with hgg
            subst hgg
            exact hall t htm
          · exact hno i g (by omega) (by omega) hgi t htm
        · intro hno i g hi1 hi2 hgi t htm
          exact hno i g (by omega) (by omega) hgi t htm
      · intro hne
        rw [hstep] at hne
        obtain ⟨i, j, g, t, heq, h1, h2, h3, h4, h5⟩ := hih.2 hne
        exact ⟨i, j, g, t, hstep.trans heq, by omega, by omega, h3, h4, h5⟩

/-- C4: under a recognised matching policy (and a non-empty pruned gold
list when the gold set is not EXTENDED, as guaranteed by the caller),
`find_match` returns (-1, -1) exactly when no considered gold entity
(only the first under PRIMARY, every one under EXTENDED) matches any tool
entity, and otherwise it returns the indices of a considered gold entity
and of a tool entity that match under the policy. -/
theorem C4_find_match_spec (gs tool : List (Option String)) (matching gold_set : String)
    (hm : matching = "STRONG" ∨ matching = "WEAK")
    (hne : gold_set = "EXTENDED" ∨ gs ≠ []) :
    (find_match gs tool matching gold_set = some (-1, -1) ↔
      ∀ i g, i < (if gold_set = "EXTENDED" then gs.length else 1) →
        gs.get? i = some g → ∀ t ∈ tool, is_match t g matching = some false)
    ∧ (find_match gs tool matching gold_set ≠ some (-1, -1) →
      ∃ (i j : Nat) (g t : Option String),
        find_match gs tool matching gold_set = some ((i : Int), (j : Int)) ∧
        i < (if gold_set = "EXTENDED" then gs.length else 1) ∧
        gs.get? i = some g ∧ tool.get? j = some t ∧
        is_match t g matching = some true) := by
  have hstop : (if gold_set = "EXTENDED" then gs.length else 1) ≤ gs.length := by
    split
    · exact le_refl _
    · rcases hne with h | h
      · contradiction
      · have : 0 < gs.length := List.length_pos.mpr h
        omega
  have hspec := findMatchFrom_spec gs tool matching hm
    (if gold_set = "EXTENDED" then gs.length else 1) 0 (by omega)
  unfold find_match
  constructor
  · rw [hspec.1]
    constructor
    · intro h i g h2 h3 t ht
      rw [is_match_eq_isMatchB t g matching hm, h i g (by omega) (by omega) h3 t ht]
    · intro h i g _ h2 h3 t ht
      have hb := h i g (by omega) h3 t ht
      rw [is_match_eq_isMatchB t g matching hm] at hb
      exact Option.some.inj hb
  · intro hne2
    obtain ⟨i, j, g, t, heq, _, h2, h3, h4, h5⟩ := hspec.2 hne2
    refine ⟨i, j, g, t, heq, by omega, h3, h4, ?_⟩
    rw [is_match_eq_isMatchB t g matching hm, h5]

/-- C4 witness: an empty tool list gives no match under PRIMARY. -/
theorem C4_witness : find_match [some "A"] [] "STRONG" "PRIMARY" = some (-1, -1) :=
  (C4_find_match_spec [some "A"] [] "STRONG" "PRIMARY" (Or.inl rfl)
    (Or.inr (by decide))).1.mpr
    (by
      intro i g _ _ t ht
      simp at ht)

/-- C5: when `find_match` succeeds with gold index i and tool index j,
the record is a true positive exactly when the tool QID at j occurs among
the pruned gold QIDs at positions start..i (start = 0 under EXTENDED,
start = i otherwise), and a false positive otherwise. -/
theorem C5_link_correctness (row : GoldRow) (df : List ToolRow)
    (matching gold_set : String) (fiq : Bool)
    (es qs raws : List String) (i j : Nat) (tq : String)
    (hp : prune_gold_set row.entity row.qid gold_set fiq = some (es, qs))
    (hne : es.isEmpty = false)
    (hseq : seqOpts ((df.filter (fun r => r.docid == row.id && r.qid.isSome)).map
      ToolRow.ent) = some raws)
    (hfm : find_match (es.map some) ((raws.map pyUpper).map some) matching gold_set =
      some ((i : Int), (j : Int)))
    (htq : ((df.filter (fun r => r.docid == row.id && r.qid.isSome)).filterMap
      ToolRow.qid).get? j = some tq) :
    classify_record row df matching gold_set fiq =
      some (if tq ∈ (qs.take (i + 1)).drop (if gold_set = "EXTENDED" then 0 else i)
        then Cls.tp else Cls.fp) := by
  have hi_ne : ¬((i : Int) = -1) := by omega
  have hnat : ((i : Int)).toNat = i := Int.toNat_natCast i
  have hjnat : ((j : Int)).toNat = j := Int.toNat_natCast j
  have hneg : ¬(es.isEmpty = true) := by simp [hne]
  unfold classify_record
  rw [hp]
  dsimp only
  rw [if_neg hneg]
  unfold classify_core
  rw [hseq]
  dsimp only
  rw [hfm]
  dsimp only
  rw [if_neg hi_ne, hjnat, htq, hnat]
  dsimp only
  rw [apply_ite some]

/-- C5 witness: matching entity with a wrong QID is a false positive. -/
theorem C5_witness :
    classify_record ⟨"d", [some "A"], [some "Q1"]⟩ [⟨"d", some "a", some "Q2"⟩]
      "WEAK" "PRIMARY" false = some Cls.fp :=
  (C5_link_correctness ⟨"d", [some "A"], [some "Q1"]⟩ [⟨"d", some "a", some "Q2"⟩]
    "WEAK" "PRIMARY" false ["A"] ["Q1"] ["a"] 0 0 "Q2"
    (by decide) (by decide) (by decide) (by decide) (by decide)).trans (by decide)

/-! ### UniRel flattening -/

/-- C8: when every parsed `c119_output` literal is a non-empty outer
list, the flattening loop succeeds and emits, for each input row, one
all-None row if the first element is empty and one row per triple
otherwise, so the output length is the sum over inputs of
max 1 (number of triples). -/
theorem C8_unirel_flatten (rows : List ReRow) (h : ∀ r ∈ rows, r.output ≠ []) :
    unirel_reformat rows = some (unirel_reformat_spec rows)
    ∧ (unirel_reformat_spec rows).length =
      (rows.map (fun r => max 1 (r.output.headD []).length)).sum := by
  induction rows with
  | nil => exact ⟨rfl, rfl⟩
  | cons r rest ih =>
    have hr : r.output ≠ [] := h r (List.mem_cons_self r rest)
    obtain ⟨hrec, hlen⟩ := ih (fun x hx => h x (List.mem_cons_of_mem r hx))
    cases hout : r.output with
    | nil => exact absurd hout hr
    | cons o os =>
      have hflat : flattenRow r =
          some (if o.isEmpty then [emptyRow r] else o.map (tripleRow r)) := by
        unfold flattenRow
        rw [hout]
        dsimp only [List.head?]
        rw [apply_ite some]
      have hspec : unirel_reformat_spec (r :: rest) =
          (if o.isEmpty then [emptyRow r] else o.map (tripleRow r)) ++
            unirel_reformat_spec rest := by
        unfold unirel_reformat_spec
        rw [List.foldr_cons, hout]
        rfl
      constructor
      · unfold unirel_reformat
        rw [hflat, hrec, hspec]
      · rw [hspec, List.length_append, List.map_cons, List.sum_cons, hlen, hout]
        simp only [List.headD_cons]
        by_cases ho : o.isEmpty = true
        · have hnil : o = [] := List.isEmpty_iff.mp ho
          subst hnil
          simp
        · have hno : o ≠ [] := by
            intro hh
            subst hh
            simp at ho
          have h1 : 1 ≤ o.length := by
            cases o with
            | nil => exact absurd rfl hno
            | cons _ _ => simp
          rw [if_neg ho, List.length_map]
          omega

/-- C8 witness. -/
theorem C8_witness :
    unirel_reformat [⟨"a", "t", [[]]⟩, ⟨"b", "u", [[("H", "R", "T")]]⟩] =
      some (unirel_reformat_spec [⟨"a", "t", [[]]⟩, ⟨"b", "u", [[("H", "R", "T")]]⟩]) :=
  (C8_unirel_flatten [⟨"a", "t", [[]]⟩, ⟨"b", "u", [[("H", "R", "T")]]⟩]
    (by decide)).1

/-! ### fill_in_qids index safety -/

theorem firstNoneIdx_lt (q : List (Option String)) (k : Nat)
    (h : firstNoneIdx q = some k) : k < q.length := by
  induction q generalizing k with
  | nil => cases h
  | cons a rest ih =>
    cases a with
    | none =>
      simp [firstNoneIdx] at h
      subst h
      simp
    | some s =>
      simp [firstNoneIdx] at h
      obtain ⟨k', hk', rfl⟩ := h
      have := ih k' hk'
      simp
      omega

theorem fill_qids_length (q q2 : List (Option String)) (h : fill_qids q = some q2) :
    q2.length = q.length := by
  unfold fill_qids at h
  repeat' split at h
  all_goals (cases h)
  all_goals simp [List.length_set]

theorem fill_qids_none_iff (q : List (Option String)) :
    fill_qids q = none ↔
      (firstNoneIdx q = some 0 ∧ q.length = 1)
      ∨ (firstNoneIdx q = some 0 ∧ q.get? 1 = some none ∧ q.length = 2)
      ∨ (firstNoneIdx q = some 1 ∧ q.length = 2) := by
  unfold fill_qids
  cases hidx : firstNoneIdx q with
  | none => simp
  | some k =>
    have hk := firstNoneIdx_lt q k hidx
    dsimp only
    by_cases hk0 : k = 0
    · subst hk0
      rw [if_pos rfl]
      cases hq1 : q.get? 1 with
      | none =>
        have hle : q.length ≤ 1 := List.get?_eq_none.mp hq1
        simp [hq1]
        omega
      | some q1 =>
        have h2 : 1 < q.length := (List.get?_eq_some.mp hq1).1
        cases q1 with
        | some s1 =>
          simp [hq1]
          omega
        | none =>
          simp only [Option.isSome_none, Bool.false_eq_true, if_false]
          cases hq2 : q.get? 2 with
          | none =>
            have hle : q.length ≤ 2 := List.get?_eq_none.mp hq2
            simp [hq1]
            omega
          | some q2 =>
            have h3 : 2 < q.length := (List.get?_eq_some.mp hq2).1
            cases q2 with
            | some s2 => simp [hq1]; omega
            | none => simp [hq1]; omega
    · by_cases hk1 : k = 1
      · subst hk1
        rw [if_neg hk0, if_pos rfl]
        cases hq2 : q.get? 2 with
        | none =>
          have hle : q.length ≤ 2 := List.get?_eq_none.mp hq2
          simp
          omega
        | some q2 =>
          have h3 : 2 < q.length := (List.get?_eq_some.mp hq2).1
          cases q2 with
          | some s2 => simp; omega
          | none => simp; omega
      · rw [if_neg hk0, if_neg hk1]
        simp [hk0, hk1]

/-- C10 counterexample: gs_qids of length 2 with its first None at
position 0 but a present QID at position 1 stays in bounds — the first
branch reads only position 1 — and `prune_gold_set` succeeds rather than
raising an IndexError. -/
theorem C10_counterexample :
    prune_gold_set [some "A", some "B"] [none, some "Q1"] "PRIMARY" true =
      some (["A"], ["Q1"]) := by decide

/-- C10 amended: with fill_in_qids enabled, the fill-in block goes out of
range exactly when gs_qids is of length 1 with its only element None, or
of length 2 with the first None at position 0 and position 1 also None,
or of length 2 with the first None at position 1; in particular any
gs_qids of length at least 3 is index-safe, and (for entity lists of
matching length) `prune_gold_set` raises exactly when the fill-in block
does. -/
theorem C10_fill_in_qids_safety (q : List (Option String)) :
    (3 ≤ q.length → (fill_qids q).isSome = true)
    ∧ (fill_qids q = none ↔
        (firstNoneIdx q = some 0 ∧ q.length = 1)
        ∨ (firstNoneIdx q = some 0 ∧ q.get? 1 = some none ∧ q.length = 2)
        ∨ (firstNoneIdx q = some 1 ∧ q.length = 2))
    ∧ (∀ (ents : List (Option String)) (gold_set : String),
        ents.length = q.length →
        (prune_gold_set ents q gold_set true = none ↔ fill_qids q = none)) := by
  refine ⟨?_, fill_qids_none_iff q, ?_⟩
  · intro h3
    cases hf : fill_qids q with
    | some _ => rfl
    | none =>
      exfalso
      rcases (fill_qids_none_iff q).mp hf with ⟨_, hl⟩ | ⟨_, _, hl⟩ | ⟨_, hl⟩ <;> omega
  · intro ents gold_set hlen
    unfold prune_gold_set
    cases hf : fill_qids q with
    | none => simp
    | some q2 =>
      have hl2 : q2.length = q.length := fill_qids_length q q2 hf
      simp [hlen, hl2]

/-- C10 witness: a length-3 gs_qids is index-safe. -/
theorem C10_witness : (fill_qids [none, none, some "Q3"]).isSome = true :=
  (C10_fill_in_qids_safety [none, none, some "Q3"]).1 (by decide)
